import Mathlib

/-!
Verification development for the SHL assessment recommendation pipeline.

The definitions below are a shallow embedding of the Python source:

* `src/app/gemini_utils.py` — URL-to-query resolution with a fixed fallback;
* `src/app/recommender.py`  — lazy-loaded model/collection globals and
  `chroma_search`, the vector-search orchestrator;
* `src/app/main.py`         — the `/recommend` endpoint: URL detection,
  the `lru_cache(maxsize=5)` result cache, and response formatting;
* `src/build_chroma_db.py`  — the offline catalog build: required-field
  filtering, chunking, and document-id assignment.

External collaborators (the sentence-transformer model, the ChromaDB
collection, the Gemini resolver) are modelled as oracle parameters: the
embedding passes them in as functions returning `Except` values, so that
both their answers and their failure modes are explicit.  Python
exceptions are modelled as `Except.error`; mutation of module-level
globals is modelled by explicit state passing, and a raised exception
leaves the state as it was at the raise point, exactly as in Python.
-/

namespace SHL

/-- Failure kinds of the pipeline: model-load failure, catalog-store
failure, embedding-computation failure, resolver failure, and the
IndexError raised when the store's reply carries no result list. -/
inductive Err where
  | load
  | store
  | embed
  | resolve
  | index
deriving DecidableEq, Repr

/-- The fixed generic fallback query returned by
`get_query_from_url` when the Gemini call fails
(src/app/gemini_utils.py lines 42-46). -/
def fallback_query : String :=
  "Entry-level role, basic technical and cognitive skills, under 30 minutes"

/-- Embedding of `get_query_from_url` (src/app/gemini_utils.py lines
18-46).  The whole resolver call and the `.strip()` on its text sit
inside a `try`; any exception is caught and the fixed fallback string is
returned.  The resolver oracle returns the response text or an error. -/
def get_query_from_url (resolver : String → Except Err String) (url : String) :
    Except Err String :=
  match resolver url with
  | .ok t => .ok t.trim
  | .error _ => .ok fallback_query

/-- Embedding of the Python test `request.query.startswith("http")`
(src/app/main.py line 154), stated on the character sequence of the
query: the query begins with the four characters of "http". -/
def startswith_http (s : String) : Bool :=
  "http".data.isPrefixOf s.data

/-- Embedding of the query-normalization step of `recommend_assessments`
(src/app/main.py lines 152-160): a query starting with "http" is routed
through `get_query_from_url`, any other query is passed on unchanged.
The boolean records whether the resolver path was taken. -/
def normalize (resolver : String → Except Err String) (input : String) :
    Except Err String × Bool :=
  if startswith_http input then (get_query_from_url resolver input, true)
  else (.ok input, false)

/-- The module-level globals of src/app/recommender.py (lines 24-27):
`_client`, `_collection` and `_model`, each `None` until lazily
initialized.  Handles are abstracted as natural numbers.  `loadCount`
instruments how many times the `SentenceTransformer` constructor ran. -/
structure ResourceState where
  _client : Option Nat
  _collection : Option Nat
  _model : Option Nat
  loadCount : Nat
deriving DecidableEq, Repr

/-- The initial state of the module: all three globals are `None`. -/
def initResources : ResourceState :=
  { _client := none, _collection := none, _model := none, loadCount := 0 }

/-- Embedding of `get_client` (src/app/recommender.py lines 29-41): if
`_client` is `None`, construct it via the `connector` oracle; on
construction failure the global stays `None` and the exception
propagates. -/
def get_client (connector : Except Err Nat) (s : ResourceState) :
    Except Err Nat × ResourceState :=
  match s._client with
  | some c => (.ok c, s)
  | none =>
    match connector with
    | .ok c => (.ok c, { s with _client := some c })
    | .error e => (.error e, s)

/-- Embedding of `get_collection` (src/app/recommender.py lines 43-61):
if `_collection` is `None`, obtain the client and ask it for the
collection; a failure there is re-raised as a RuntimeError, modelled as
`Err.store`. -/
def get_collection (connector : Except Err Nat) (getColl : Nat → Except Err Nat)
    (s : ResourceState) : Except Err Nat × ResourceState :=
  match s._collection with
  | some c => (.ok c, s)
  | none =>
    match get_client connector s with
    | (.error e, s1) => (.error e, s1)
    | (.ok cl, s1) =>
      match getColl cl with
      | .ok col => (.ok col, { s1 with _collection := some col })
      | .error _ => (.error .store, s1)

/-- Embedding of `get_model` (src/app/recommender.py lines 63-74): if
`_model` is `None`, run the `SentenceTransformer` constructor (the
`loader` oracle) and store the handle; otherwise return the existing
handle without reloading. -/
def get_model (loader : Except Err Nat) (s : ResourceState) :
    Except Err Nat × ResourceState :=
  match s._model with
  | some m => (.ok m, s)
  | none =>
    match loader with
    | .ok m => (.ok m, { s with _model := some m, loadCount := s.loadCount + 1 })
    | .error e => (.error e, s)

/-- Modelled from the spec: `release_model` is imported by
src/app/main.py line 8 but is absent from src/app/recommender.py.  Per
the spec's Embedding Resource Manager contract, release drops the
loaded model so its memory can be reclaimed, and is a no-op when
already Unloaded. -/
def release_model (s : ResourceState) : ResourceState :=
  { s with _model := none }

/-- Metadata of one catalog item as returned to the serving path: an
association list of string fields. -/
abbrev Metadata := List (String × String)

/-- Embedding of `chroma_search` (src/app/recommender.py lines 76-102):
acquire the model, acquire the collection, encode the query text, ask
the store for the `top_k` nearest items, and return
`results["metadatas"][0]`.  The store oracle reports, per query
embedding, the matched items paired with their distances; the
`include=["metadatas"]` projection keeps only the metadata, in the
store's order.  An empty reply makes the `[0]` subscript raise,
modelled as `Err.index`.  No step of this function releases the model:
the globals keep whatever the acquisitions set. -/
def chroma_search (loader : Except Err Nat) (connector : Except Err Nat)
    (getColl : Nat → Except Err Nat)
    (encode : Nat → String → Except Err (List Int))
    (query : Nat → List Int → Nat → Except Err (List (List (Metadata × Int))))
    (query_text : String) (top_k : Nat) (s : ResourceState) :
    Except Err (List Metadata) × ResourceState :=
  match get_model loader s with
  | (.error e, s1) => (.error e, s1)
  | (.ok m, s1) =>
    match get_collection connector getColl s1 with
    | (.error e, s2) => (.error e, s2)
    | (.ok col, s2) =>
      match encode m query_text with
      | .error e => (.error e, s2)
      | .ok emb =>
        match query col emb top_k with
        | .error e => (.error e, s2)
        | .ok res =>
          match res with
          | [] => (.error .index, s2)
          | ms :: _ => (.ok (ms.map Prod.fst), s2)

/-- Capacity of the result cache: `lru_cache(maxsize=5)` on
`cached_search` (src/app/main.py line 135). -/
def lru_maxsize : Nat := 5

/-- Cache key of `cached_search`: the positional arguments
`(query_text, top_k)` (src/app/main.py line 136). -/
abbrev CacheKey := String × Nat

/-- State of the `lru_cache` wrapper around `cached_search`, plus
instrumentation.  `entries` is ordered most-recently-used first.
`calls` counts how many times the wrapped function (`chroma_search`)
was actually invoked. -/
structure CacheState (V : Type) where
  entries : List (CacheKey × V)
  calls : Nat
deriving DecidableEq, Repr

/-- The empty cache a fresh process starts with. -/
def emptyCache (V : Type) : CacheState V :=
  { entries := [], calls := 0 }

/-- Embedding of `cached_search` under `functools.lru_cache(maxsize=5)`
(src/app/main.py lines 134-138).  On a hit the entry moves to
most-recently-used and the wrapped function is not invoked; on a miss
the wrapped function runs (its answer on its n-th invocation is
`compute n`, so distinct invocations may answer differently), the new
entry is inserted most-recently-used, and if the cache would exceed
`maxsize` the least-recently-used entry is evicted. -/
def cached_search {V : Type} (compute : Nat → V) (key : CacheKey)
    (st : CacheState V) : V × CacheState V :=
  match st.entries.find? (fun e => decide (e.1 = key)) with
  | some e =>
    (e.2, { st with entries := (key, e.2) :: st.entries.filter (fun x => !decide (x.1 = key)) })
  | none =>
    let v := compute st.calls
    (v, { entries := ((key, v) :: st.entries).take lru_maxsize, calls := st.calls + 1 })

/-- Whether a key is resident in the cache, i.e. whether a lookup of it
would be a hit. -/
def cacheHit {V : Type} (st : CacheState V) (key : CacheKey) : Bool :=
  (st.entries.find? (fun e => decide (e.1 = key))).isSome

/-- Runs a sequence of `cached_search` calls, returning the final cache
state. -/
def run_calls {V : Type} (compute : Nat → V) (keys : List CacheKey)
    (st : CacheState V) : CacheState V :=
  keys.foldl (fun s k => (cached_search compute k s).2) st

/-- Response schema of the `/recommend` endpoint: the `AssessmentResponse`
pydantic model (src/app/main.py lines 36-42).  It has exactly these six
string fields. -/
structure AssessmentResponse where
  name : String
  url : String
  remote_testing : String
  adaptive_irt_support : String
  duration : String
  test_type : String
deriving DecidableEq, Repr

/-- Embedding of `item.get(key, "")` on a metadata dict: the stored
value when the field is present, and the empty string otherwise. -/
def mget (item : Metadata) (key : String) : String :=
  ((item.find? (fun e => decide (e.1 = key))).map Prod.snd).getD ""

/-- Embedding of the response construction for one result item
(src/app/main.py lines 188-195): each of the six fields is read with
`item.get(field, "")`, the `adaptive_irt_support` field coming from the
stored key "adaptive/irt_support". -/
def format_item (item : Metadata) : AssessmentResponse :=
  { name := mget item "name"
    url := mget item "url"
    remote_testing := mget item "remote_testing"
    adaptive_irt_support := mget item "adaptive/irt_support"
    duration := mget item "duration"
    test_type := mget item "test_type" }

/-- Embedding of the response list comprehension (src/app/main.py lines
187-197): one `AssessmentResponse` per result item, in order. -/
def recommend_response (results : List Metadata) : List AssessmentResponse :=
  results.map format_item

/-- A JSON value as it appears in an entry of `data/SHL_RAW.json`:
either a plain string or a list of strings (the `languages` field).
Only these shapes are touched by the build code. -/
inductive JValue where
  | str : String → JValue
  | list : List String → JValue
deriving DecidableEq, Repr

/-- One element of the raw assessment catalog list: either a JSON
object (an association list of fields) or some other JSON value, which
`isinstance(item, dict)` rejects (src/build_chroma_db.py lines 140-141). -/
inductive RawEntry where
  | dict : List (String × JValue) → RawEntry
  | other : RawEntry
deriving DecidableEq, Repr

/-- Embedding of `stringify` (src/build_chroma_db.py lines 67-72): an
empty list becomes "Not specified", a non-empty list is joined with
", ", and any other value is returned unchanged. -/
def stringify : JValue → JValue
  | .list [] => .str "Not specified"
  | .list (x :: xs) => .str (String.intercalate ", " (x :: xs))
  | .str s => .str s

/-- The required fields checked by the build step
(src/build_chroma_db.py lines 144-147). -/
def required_fields : List String :=
  ["name", "url", "description", "duration", "languages",
   "job_level", "remote_testing", "adaptive/irt_support", "test_type"]

/-- Whether a JSON object has a field, i.e. `field in item`. -/
def dictHas (fields : List (String × JValue)) (k : String) : Bool :=
  (fields.find? (fun e => decide (e.1 = k))).isSome

/-- Field access `item[k]` on a JSON object; the default is irrelevant
because every access in the build happens after the required-field
check. -/
def dictGet (fields : List (String × JValue)) (k : String) : JValue :=
  ((fields.find? (fun e => decide (e.1 = k))).map Prod.snd).getD (.str "")

/-- Whether a raw entry passes the build-time validity check
(src/build_chroma_db.py lines 140-149): it must be a dict and carry all
required fields. -/
def validEntry : RawEntry → Bool
  | .dict fields => required_fields.all (dictHas fields)
  | .other => false

/-- Embedding of the metadata record stored for one valid entry
(src/build_chroma_db.py lines 160-170): the nine required fields, with
`languages` passed through `stringify`. -/
def build_metadata (fields : List (String × JValue)) : List (String × JValue) :=
  [("name", dictGet fields "name"),
   ("url", dictGet fields "url"),
   ("description", dictGet fields "description"),
   ("duration", dictGet fields "duration"),
   ("languages", stringify (dictGet fields "languages")),
   ("job_level", dictGet fields "job_level"),
   ("remote_testing", dictGet fields "remote_testing"),
   ("adaptive/irt_support", dictGet fields "adaptive/irt_support"),
   ("test_type", dictGet fields "test_type")]

/-- The metadata an entry would contribute were it stored. -/
def entryMetadata : RawEntry → List (String × JValue)
  | .dict fields => build_metadata fields
  | .other => []

/-- Chunk size of the build loop: `max_chunk_size = 100`
(src/build_chroma_db.py line 105). -/
def max_chunk_size : Nat := 100

/-- Embedding of the chunking comprehension
`[catalog[i:i+100] for i in range(0, len(catalog), 100)]`
(src/build_chroma_db.py line 106). -/
def chunksOf : List α → List (List α)
  | [] => []
  | x :: xs =>
    (x :: xs).take max_chunk_size :: chunksOf ((x :: xs).drop max_chunk_size)
termination_by xs => xs.length
decreasing_by
  simp only [List.length_drop, List.length_cons, max_chunk_size]
  omega

/-- Embedding of the per-chunk metadata collection
(src/build_chroma_db.py lines 138-170): iterate the chunk, skip
non-dict entries and entries missing a required field, and collect the
metadata record of each remaining entry in order. -/
def chunk_metadatas (chunk : List RawEntry) : List (List (String × JValue)) :=
  chunk.filterMap fun e =>
    match e with
    | .dict fields =>
      if required_fields.all (dictHas fields) then some (build_metadata fields) else none
    | .other => none

/-- Embedding of the per-chunk id collection (src/build_chroma_db.py
lines 138-172): for each valid entry at position `i` of the chunk
(`for i, item in enumerate(chunk)`), the numeric part of the id
`f"{chunk_idx * max_chunk_size + i}"`. -/
def chunk_ids (chunk_idx : Nat) (chunk : List RawEntry) : List Nat :=
  (chunk.enum.filter (fun p => validEntry p.2)).map
    (fun p => chunk_idx * max_chunk_size + p.1)

/-- All metadata records stored by `create_vector_db`
(src/build_chroma_db.py lines 104-201), in storage order: the chunks in
order, each contributing its valid entries' metadata.  The mini-batched
`collection.add` calls partition this list without reordering it. -/
def create_vector_db_metadatas (catalog : List RawEntry) :
    List (List (String × JValue)) :=
  (chunksOf catalog).flatMap chunk_metadatas

/-- All document ids generated by `create_vector_db`, in storage order;
each is the decimal string `f"{chunk_idx * max_chunk_size + i}"`
(src/build_chroma_db.py line 172). -/
def create_vector_db_ids (catalog : List RawEntry) : List String :=
  ((chunksOf catalog).enum.flatMap (fun p => chunk_ids p.1 p.2)).map Nat.repr

/-- Whether a metadata dict exposes a field at all. -/
def mhas (item : Metadata) (key : String) : Bool :=
  (item.find? (fun e => decide (e.1 = key))).isSome

/-- C3: for every reference-pattern input (a query beginning with
"http"), the query-normalization step never raises: it always returns a
value, and when the external resolver fails for any reason it returns
the fixed generic fallback text instead of propagating the error. -/
theorem normalize_url_never_raises (resolver : String → Except Err String)
    (input : String) (h : startswith_http input = true) :
    (∃ s, (normalize resolver input).1 = .ok s) ∧
    (∀ e, resolver input = .error e →
      (normalize resolver input).1 = .ok fallback_query) := by
  constructor
  · rw [normalize, if_pos h]
    rw [get_query_from_url]
    cases resolver input with
    | ok t => exact ⟨t.trim, rfl⟩
    | error e => exact ⟨fallback_query, rfl⟩
  · intro e he
    rw [normalize, if_pos h, get_query_from_url, he]

/-- Witness for `normalize_url_never_raises` at a concrete failing
resolver and a concrete URL. -/
theorem normalize_url_never_raises_witness :
    (∃ s, (normalize (fun _ => .error .resolve) "https://jobs.example.com/123").1 = .ok s) ∧
    (∀ e, (fun _ => (.error .resolve : Except Err String)) "https://jobs.example.com/123" = .error e →
      (normalize (fun _ => .error .resolve) "https://jobs.example.com/123").1 = .ok fallback_query) :=
  normalize_url_never_raises (fun _ => .error .resolve) "https://jobs.example.com/123" (by decide)

/-- C9: for every input string that does not begin with "http", query
normalization is the identity and the external resolver is not invoked
(the resolver-path flag stays false). -/
theorem normalize_non_url_identity (resolver : String → Except Err String)
    (input : String) (h : startswith_http input = false) :
    normalize resolver input = (.ok input, false) := by
  rw [normalize, if_neg (by simp [h])]

/-- Witness for `normalize_non_url_identity` on a concrete plain-text
query. -/
theorem normalize_non_url_identity_witness :
    normalize (fun _ => .error .resolve) "Need a Python and SQL test under 60 minutes"
      = (.ok "Need a Python and SQL test under 60 minutes", false) :=
  normalize_non_url_identity (fun _ => .error .resolve)
    "Need a Python and SQL test under 60 minutes" (by decide)

/-- C7: the acquire operation of the Embedding Resource Manager is
idempotent: whenever an acquire returns handle m leaving state s1, a
further acquire in state s1 returns the same handle m with the state
unchanged (no reload happens), and across both calls the model was
loaded at most once. -/
theorem get_model_idempotent (loader : Except Err Nat) (s : ResourceState)
    (m : Nat) (s1 : ResourceState) (h : get_model loader s = (.ok m, s1)) :
    get_model loader s1 = (.ok m, s1) ∧ s1.loadCount ≤ s.loadCount + 1 := by
  unfold get_model at h
  cases hm : s._model with
  | some m0 =>
    rw [hm] at h
    have h1 : m0 = m := by
      have := congrArg Prod.fst h
      simpa using this
    have h2 : s = s1 := by
      have := congrArg Prod.snd h
      simpa using this
    subst h1; subst h2
    unfold get_model
    rw [hm]
    exact ⟨rfl, Nat.le_succ _⟩
  | none =>
    rw [hm] at h
    cases hl : loader with
    | ok m0 =>
      rw [hl] at h
      have h1 : m0 = m := by
        have := congrArg Prod.fst h
        simpa using this
      have h2 : { s with _model := some m0, loadCount := s.loadCount + 1 } = s1 := by
        have := congrArg Prod.snd h
        simpa using this
      subst h1
      constructor
      · unfold get_model
        rw [← h2]
      · rw [← h2]
    | error e =>
      rw [hl] at h
      have := congrArg Prod.fst h
      simp at this

/-- Witness for `get_model_idempotent` at a concrete loader and the
initial (Unloaded) state. -/
theorem get_model_idempotent_witness :
    get_model (.ok 7) { _client := none, _collection := none, _model := some 7, loadCount := 1 }
      = (.ok 7, { _client := none, _collection := none, _model := some 7, loadCount := 1 })
    ∧ ({ _client := none, _collection := none, _model := some 7, loadCount := 1 } : ResourceState).loadCount
      ≤ initResources.loadCount + 1 :=
  get_model_idempotent (.ok 7) initResources 7
    { _client := none, _collection := none, _model := some 7, loadCount := 1 } (by rfl)

/-- C5: every item of a successful recommend response is rendered with
exactly the six string fields of `AssessmentResponse`; each field holds
the stored metadata value, and every field the stored metadata lacks is
rendered as the empty string, never omitted. -/
theorem recommend_response_fields (results : List Metadata) (item : Metadata)
    (h : item ∈ results) :
    format_item item ∈ recommend_response results ∧
    format_item item = ⟨mget item "name", mget item "url", mget item "remote_testing",
      mget item "adaptive/irt_support", mget item "duration", mget item "test_type"⟩ ∧
    (mhas item "name" = false → (format_item item).name = "") ∧
    (mhas item "url" = false → (format_item item).url = "") ∧
    (mhas item "remote_testing" = false → (format_item item).remote_testing = "") ∧
    (mhas item "adaptive/irt_support" = false → (format_item item).adaptive_irt_support = "") ∧
    (mhas item "duration" = false → (format_item item).duration = "") ∧
    (mhas item "test_type" = false → (format_item item).test_type = "") := by
  have hget : ∀ k : String, mhas item k = false → mget item k = "" := by
    intro k hk
    rw [mhas] at hk
    rw [mget]
    cases hf : item.find? (fun e => decide (e.1 = k)) with
    | none => rfl
    | some e => rw [hf] at hk; simp at hk
  refine ⟨List.mem_map_of_mem format_item h, rfl, ?_, ?_, ?_, ?_, ?_, ?_⟩ <;>
    intro hk <;> exact hget _ hk

/-- A concrete stored metadata item that lacks the duration and
test_type fields, used to witness the response-formatting theorem. -/
def sample_item : Metadata :=
  [("name", "OPQ"), ("url", "https://x"), ("remote_testing", "Yes"),
   ("adaptive/irt_support", "No")]

/-- Witness for `recommend_response_fields` on a concrete result item
that lacks the duration and test_type fields. -/
theorem recommend_response_fields_witness :
    format_item sample_item ∈ recommend_response [sample_item] ∧
    format_item sample_item = ⟨mget sample_item "name", mget sample_item "url",
      mget sample_item "remote_testing", mget sample_item "adaptive/irt_support",
      mget sample_item "duration", mget sample_item "test_type"⟩ ∧
    (mhas sample_item "name" = false → (format_item sample_item).name = "") ∧
    (mhas sample_item "url" = false → (format_item sample_item).url = "") ∧
    (mhas sample_item "remote_testing" = false → (format_item sample_item).remote_testing = "") ∧
    (mhas sample_item "adaptive/irt_support" = false →
      (format_item sample_item).adaptive_irt_support = "") ∧
    (mhas sample_item "duration" = false → (format_item sample_item).duration = "") ∧
    (mhas sample_item "test_type" = false → (format_item sample_item).test_type = "") :=
  recommend_response_fields [sample_item] sample_item (by simp)

/-- A successful acquire leaves the model global set to the returned
handle. -/
theorem get_model_ok_loaded (loader : Except Err Nat) (s : ResourceState)
    (m : Nat) (s1 : ResourceState) (h : get_model loader s = (.ok m, s1)) :
    s1._model = some m := by
  unfold get_model at h
  cases hm : s._model with
  | some m0 =>
    rw [hm] at h
    have h1 : m0 = m := by simpa using congrArg Prod.fst h
    have h2 : s = s1 := by simpa using congrArg Prod.snd h
    rw [← h2, hm, h1]
  | none =>
    rw [hm] at h
    cases hl : loader with
    | ok m0 =>
      rw [hl] at h
      have h1 : m0 = m := by simpa using congrArg Prod.fst h
      have h2 : { s with _model := some m0, loadCount := s.loadCount + 1 } = s1 := by
        simpa using congrArg Prod.snd h
      rw [← h2, h1]
    | error e =>
      rw [hl] at h
      simpa using congrArg Prod.fst h

/-- Acquiring the client never touches the model global. -/
theorem get_client_model_eq (connector : Except Err Nat) (s : ResourceState) :
    (get_client connector s).2._model = s._model := by
  unfold get_client
  cases s._client with
  | some c => rfl
  | none => cases connector <;> rfl

/-- Acquiring the collection never touches the model global. -/
theorem get_collection_model_eq (connector : Except Err Nat)
    (getColl : Nat → Except Err Nat) (s : ResourceState) :
    (get_collection connector getColl s).2._model = s._model := by
  unfold get_collection
  cases s._collection with
  | some c => rfl
  | none =>
    simp only []
    rcases hg : get_client connector s with ⟨cres, s1⟩
    have hs1 : s1._model = s._model := by
      have := get_client_model_eq connector s
      rw [hg] at this
      exact this
    cases cres with
    | error e => exact hs1
    | ok cl =>
      simp only []
      cases getColl cl with
      | ok col => exact hs1
      | error e => exact hs1

/-- C1 (amended): chroma_search never releases the embedder.  The model
global after the call is exactly what the acquire step left behind, and
in particular every successful call returns with the Embedding Resource
Manager still in the Loaded state, not Unloaded. -/
theorem chroma_search_never_releases (loader connector : Except Err Nat)
    (getColl : Nat → Except Err Nat) (encode : Nat → String → Except Err (List Int))
    (query : Nat → List Int → Nat → Except Err (List (List (Metadata × Int))))
    (query_text : String) (top_k : Nat) (s : ResourceState) (l : List Metadata)
    (h : (chroma_search loader connector getColl encode query query_text top_k s).1 = .ok l) :
    (chroma_search loader connector getColl encode query query_text top_k s).2._model
      = (get_model loader s).2._model ∧
    ((chroma_search loader connector getColl encode query query_text top_k s).2._model).isSome
      = true := by
  unfold chroma_search at h ⊢
  rcases hm : get_model loader s with ⟨mres, s1⟩
  rw [hm] at h
  cases mres with
  | error e => simp at h
  | ok m =>
    simp only [] at h
    have hs1 : s1._model = some m := get_model_ok_loaded loader s m s1 hm
    rcases hc : get_collection connector getColl s1 with ⟨cres, s2⟩
    rw [hc] at h
    have hs2 : s2._model = s1._model := by
      have := get_collection_model_eq connector getColl s1
      rw [hc] at this
      exact this
    cases cres with
    | error e => simp at h
    | ok col =>
      simp only [] at h
      cases he : encode m query_text with
      | error e => rw [he] at h; simp at h
      | ok emb =>
        rw [he] at h
        simp only [] at h
        cases hq : query col emb top_k with
        | error e => rw [hq] at h; simp at h
        | ok res =>
          rw [hq] at h
          simp only [] at h
          cases res with
          | nil => simp at h
          | cons ms rest =>
            constructor
            · simp [hs2, hc, he, hq]
            · simp [hs2, hs1, hc, he, hq]

/-- Witness for `chroma_search_never_releases`: a fully successful
concrete search, after which the model global is still set. -/
theorem chroma_search_never_releases_witness :
    (chroma_search (.ok 0) (.ok 0) (fun _ => .ok 0) (fun _ _ => .ok [1])
      (fun _ _ _ => .ok [[([("name", "A")], 1)]]) "q" 5 initResources).2._model
      = (get_model (.ok 0) initResources).2._model ∧
    ((chroma_search (.ok 0) (.ok 0) (fun _ => .ok 0) (fun _ _ => .ok [1])
      (fun _ _ _ => .ok [[([("name", "A")], 1)]]) "q" 5 initResources).2._model).isSome
      = true :=
  chroma_search_never_releases (.ok 0) (.ok 0) (fun _ => .ok 0) (fun _ _ => .ok [1])
    (fun _ _ _ => .ok [[([("name", "A")], 1)]]) "q" 5 initResources [[("name", "A")]] rfl

/-- C1 counterexample: with a store that fails during the catalog
lookup, chroma_search propagates the StoreError yet the model global is
still set when the call returns: the Embedding Resource Manager is
Loaded, not Unloaded, so the release the claim asserts did not happen. -/
theorem chroma_search_release_counterexample :
    (chroma_search (.ok 0) (.ok 0) (fun _ => .ok 0) (fun _ _ => .ok [1])
      (fun _ _ _ => .error .store) "q" 5 initResources).1 = .error .store ∧
    (chroma_search (.ok 0) (.ok 0) (fun _ => .ok 0) (fun _ _ => .ok [1])
      (fun _ _ _ => .error .store) "q" 5 initResources).2._model = some 0 :=
  ⟨rfl, rfl⟩

/-- After any cached-search call, the key just requested sits at the
most-recently-used position with the value just returned. -/
theorem cached_search_key_at_head {V : Type} (compute : Nat → V) (key : CacheKey)
    (st : CacheState V) :
    ∃ t, (cached_search compute key st).2.entries
      = (key, (cached_search compute key st).1) :: t := by
  unfold cached_search
  cases h : st.entries.find? (fun e => decide (e.1 = key)) with
  | some e => exact ⟨_, rfl⟩
  | none => exact ⟨st.entries.take 4, rfl⟩

/-- A cached-search call runs the wrapped function at most once. -/
theorem cached_search_calls_le {V : Type} (compute : Nat → V) (key : CacheKey)
    (st : CacheState V) :
    (cached_search compute key st).2.calls ≤ st.calls + 1 := by
  unfold cached_search
  cases h : st.entries.find? (fun e => decide (e.1 = key)) with
  | some e => exact Nat.le_succ _
  | none => exact Nat.le_refl _

/-- A cached-search call whose key is resident is a pure hit: it returns
the cached value, refreshes the key's recency, and does not run the
wrapped function. -/
theorem cached_search_hit_eq {V : Type} (compute : Nat → V) (key : CacheKey)
    (st : CacheState V) (v : V)
    (h : st.entries.find? (fun e => decide (e.1 = key)) = some (key, v)) :
    cached_search compute key st
      = (v, ⟨(key, v) :: st.entries.filter (fun x => !decide (x.1 = key)), st.calls⟩) := by
  unfold cached_search
  rw [h]

/-- C8: two consecutive cached-search calls with identical arguments
invoke the wrapped compute function at most once in total, and the
second call returns the same value as the first. -/
theorem cached_search_idempotent {V : Type} (compute : Nat → V) (key : CacheKey)
    (st : CacheState V) :
    (cached_search compute key (cached_search compute key st).2).1
      = (cached_search compute key st).1 ∧
    (cached_search compute key (cached_search compute key st).2).2.calls
      ≤ st.calls + 1 := by
  obtain ⟨t, ht⟩ := cached_search_key_at_head compute key st
  have hfind : (cached_search compute key st).2.entries.find?
      (fun e => decide (e.1 = key)) = some (key, (cached_search compute key st).1) := by
    rw [ht]
    simp [List.find?]
  rw [cached_search_hit_eq compute key _ _ hfind]
  exact ⟨rfl, cached_search_calls_le compute key st⟩

/-- If a search finds an entry, removing every entry with the matched
key strictly shrinks the list. -/
theorem find?_some_filter_length_lt {α : Type} (p : α → Bool) (l : List α) (e : α)
    (h : l.find? p = some e) :
    (l.filter (fun x => !p x)).length < l.length := by
  induction l with
  | nil => simp [List.find?] at h
  | cons a t ih =>
    cases hpa : p a with
    | true =>
      have hfeq : (a :: t).filter (fun x => !p x) = t.filter (fun x => !p x) := by
        simp [List.filter_cons, hpa]
      rw [hfeq, List.length_cons]
      exact Nat.lt_succ_of_le (List.length_filter_le _ _)
    | false =>
      have hft : t.find? p = some e := by
        rw [List.find?_cons_of_neg _ (by simp [hpa])] at h
        exact h
      have hfeq : (a :: t).filter (fun x => !p x) = a :: t.filter (fun x => !p x) := by
        simp [List.filter_cons, hpa]
      rw [hfeq, List.length_cons, List.length_cons]
      exact Nat.succ_lt_succ (ih hft)

/-- The six-distinct-key scenario of the eviction claim: keys q1 to q6
requested in order against the empty cache (all six are misses). -/
def six_state : CacheState Nat :=
  run_calls (fun n => n)
    [("q1", 3), ("q2", 3), ("q3", 3), ("q4", 3), ("q5", 3), ("q6", 3)] (emptyCache Nat)

/-- A call sequence that separates insertion order from recency order:
q1 to q5 (five misses), then q1 again (a hit, not an insertion), then q6
(a miss at capacity). -/
def seven_state : CacheState Nat :=
  run_calls (fun n => n)
    [("q1", 3), ("q2", 3), ("q3", 3), ("q4", 3), ("q5", 3), ("q1", 3), ("q6", 3)]
    (emptyCache Nat)

/-- C2 (amended): the result cache holds at most 5 entries; an insertion
at capacity evicts the least-recently-USED entry (the tail of the
recency list), not in general the least-recently-inserted one; the
claim's own scenario still holds: after six distinct keys against the
empty cache the first key is a miss and the other five are hits. -/
theorem cache_capacity_and_lru_eviction {V : Type} (compute : Nat → V) (key : CacheKey)
    (st : CacheState V) (hcap : st.entries.length ≤ lru_maxsize) :
    (cached_search compute key st).2.entries.length ≤ lru_maxsize ∧
    (st.entries.find? (fun e => decide (e.1 = key)) = none →
      st.entries.length = lru_maxsize →
      (cached_search compute key st).2.entries
        = (key, compute st.calls) :: st.entries.dropLast) ∧
    (cacheHit six_state ("q1", 3) = false ∧ cacheHit six_state ("q2", 3) = true ∧
      cacheHit six_state ("q3", 3) = true ∧ cacheHit six_state ("q4", 3) = true ∧
      cacheHit six_state ("q5", 3) = true ∧ cacheHit six_state ("q6", 3) = true) := by
  refine ⟨?_, ?_, rfl, rfl, rfl, rfl, rfl, rfl⟩
  · unfold cached_search
    cases hf : st.entries.find? (fun e => decide (e.1 = key)) with
    | some e =>
      have hlt : (List.filter (fun x => !decide (x.1 = key)) st.entries).length
          < st.entries.length :=
        find?_some_filter_length_lt (fun e => decide (e.1 = key)) st.entries e hf
      simp only [List.length_cons]
      omega
    | none =>
      simp only [List.length_take]
      omega
  · intro hmiss hfull
    unfold cached_search
    rw [hmiss]
    simp only []
    rw [List.dropLast_eq_take, hfull]
    rfl

/-- A concrete cache at capacity with keys q1 to q5 resident. -/
def full_cache : CacheState Nat :=
  { entries := [(("q1", 3), 10), (("q2", 3), 11), (("q3", 3), 12),
                (("q4", 3), 13), (("q5", 3), 14)],
    calls := 5 }

/-- Witness for `cache_capacity_and_lru_eviction` at a concrete full
cache and a fresh key. -/
theorem cache_capacity_and_lru_eviction_witness :
    (cached_search (fun n => n) ("q6", 3) full_cache).2.entries.length ≤ lru_maxsize ∧
    (full_cache.entries.find? (fun e => decide (e.1 = ("q6", 3))) = none →
      full_cache.entries.length = lru_maxsize →
      (cached_search (fun n => n) ("q6", 3) full_cache).2.entries
        = (("q6", 3), (fun n : Nat => n) full_cache.calls) :: full_cache.entries.dropLast) ∧
    (cacheHit six_state ("q1", 3) = false ∧ cacheHit six_state ("q2", 3) = true ∧
      cacheHit six_state ("q3", 3) = true ∧ cacheHit six_state ("q4", 3) = true ∧
      cacheHit six_state ("q5", 3) = true ∧ cacheHit six_state ("q6", 3) = true) :=
  cache_capacity_and_lru_eviction (fun n => n) ("q6", 3) full_cache (by decide)

/-- C2 counterexample: in the run q1 q2 q3 q4 q5 q1 q6, the q6 call
inserts at capacity.  The least-recently-inserted resident key is q1
(the repeat q1 call was a hit, not an insertion), so the claim demands
q1 be evicted; the code instead evicts q2, the least-recently-used key:
afterwards q1 is still a hit and q2 is a miss. -/
theorem cache_eviction_counterexample :
    cacheHit seven_state ("q1", 3) = true ∧ cacheHit seven_state ("q2", 3) = false :=
  ⟨rfl, rfl⟩

/-- C4: under the Catalog Store's nearest-neighbor contract — its reply
to the top_k query lists at most top_k items in nondecreasing distance
order — every successful chroma_search returns at most top_k metadata
items, and returns them exactly in the store's order: the result is the
metadata projection of the store's distance-sorted reply, so for any
two returned positions i < j the item at i is at most as distant (at
least as similar) as the item at j. -/
theorem chroma_search_ordering (loader connector : Except Err Nat)
    (getColl : Nat → Except Err Nat) (encode : Nat → String → Except Err (List Int))
    (pairs : List (Metadata × Int))
    (query : Nat → List Int → Nat → Except Err (List (List (Metadata × Int))))
    (query_text : String) (top_k : Nat) (s : ResourceState)
    (hq : ∀ col emb, query col emb top_k = .ok [pairs])
    (hlen : pairs.length ≤ top_k)
    (hsorted : pairs.Pairwise (fun a b => a.2 ≤ b.2))
    (l : List Metadata)
    (hok : (chroma_search loader connector getColl encode query query_text top_k s).1
      = .ok l) :
    l.length ≤ top_k ∧ l = pairs.map Prod.fst ∧
    ∀ (i j : Nat) (hi : i < pairs.length) (hj : j < pairs.length),
      i < j → (pairs.get ⟨i, hi⟩).2 ≤ (pairs.get ⟨j, hj⟩).2 := by
  have hmain : l = pairs.map Prod.fst := by
    unfold chroma_search at hok
    rcases hm : get_model loader s with ⟨mres, s1⟩
    rw [hm] at hok
    cases mres with
    | error e => simp at hok
    | ok m =>
      simp only [] at hok
      rcases hc : get_collection connector getColl s1 with ⟨cres, s2⟩
      rw [hc] at hok
      cases cres with
      | error e => simp at hok
      | ok col =>
        simp only [] at hok
        cases he : encode m query_text with
        | error e => rw [he] at hok; simp at hok
        | ok emb =>
          rw [he] at hok
          simp only [] at hok
          rw [hq col emb] at hok
          simp only [] at hok
          simp at hok
          exact hok.symm
  refine ⟨?_, hmain, ?_⟩
  · rw [hmain, List.length_map]
    exact hlen
  · intro i j hi hj hij
    have := List.pairwise_iff_get.mp hsorted ⟨i, hi⟩ ⟨j, hj⟩ hij
    exact this

/-- A concrete distance-sorted store reply used to witness the ordering
theorem. -/
def store_reply : List (Metadata × Int) :=
  [([("name", "A")], 1), ([("name", "B")], 2)]

/-- Witness for `chroma_search_ordering` at a concrete store reply of
two items with distances 1 and 2. -/
theorem chroma_search_ordering_witness :
    ([[("name", "A")], [("name", "B")]] : List Metadata).length ≤ 5 ∧
    ([[("name", "A")], [("name", "B")]] : List Metadata) = store_reply.map Prod.fst ∧
    ∀ (i j : Nat) (hi : i < store_reply.length) (hj : j < store_reply.length),
      i < j → (store_reply.get ⟨i, hi⟩).2 ≤ (store_reply.get ⟨j, hj⟩).2 :=
  chroma_search_ordering (.ok 0) (.ok 0) (fun _ => .ok 0) (fun _ _ => .ok [1])
    store_reply (fun _ _ _ => .ok [store_reply]) "q" 5 initResources
    (fun _ _ => rfl) (by decide) (by decide)
    [[("name", "A")], [("name", "B")]] rfl

/-- Concatenating the chunks of the build loop recovers the catalog. -/
theorem chunksOf_flatten {α : Type} (xs : List α) : (chunksOf xs).flatten = xs := by
  induction xs using chunksOf.induct with
  | case1 => simp [chunksOf]
  | case2 x xs ih =>
    rw [chunksOf]
    simp only [List.flatten_cons, ih, List.take_append_drop]

/-- Every chunk of the build loop holds at most `max_chunk_size`
entries. -/
theorem chunksOf_length_le {α : Type} (xs : List α) (c : List α)
    (hc : c ∈ chunksOf xs) : c.length ≤ max_chunk_size := by
  induction xs using chunksOf.induct with
  | case1 => simp [chunksOf] at hc
  | case2 x xs ih =>
    rw [chunksOf] at hc
    rcases List.mem_cons.mp hc with h | h
    · subst h
      exact List.length_take_le _ _
    · exact ih h

/-- Collecting through a guard is filtering then mapping. -/
theorem filterMap_guard_eq {α β : Type} (p : α → Bool) (g : α → β) (l : List α) :
    l.filterMap (fun x => if p x then some (g x) else none) = (l.filter p).map g := by
  induction l with
  | nil => rfl
  | cons a l ih =>
    cases hpa : p a <;> simp [List.filterMap_cons, List.filter_cons, hpa, ih]

/-- The per-chunk metadata collection is the validity filter followed by
the metadata build. -/
theorem chunk_metadatas_eq (c : List RawEntry) :
    chunk_metadatas c = (c.filter validEntry).map entryMetadata := by
  have h1 : chunk_metadatas c
      = c.filterMap (fun e => if validEntry e then some (entryMetadata e) else none) := by
    unfold chunk_metadatas
    apply List.filterMap_congr
    intro e he
    cases e with
    | dict fields => rfl
    | other => rfl
  rw [h1, filterMap_guard_eq]

/-- Chunked collection equals direct collection over the concatenated
catalog. -/
theorem flatMap_chunk_metadatas (L : List (List RawEntry)) :
    L.flatMap chunk_metadatas = (L.flatten.filter validEntry).map entryMetadata := by
  induction L with
  | nil => rfl
  | cons c L ih =>
    simp [List.flatMap_cons, chunk_metadatas_eq, ih, List.flatten_cons,
      List.filter_append]

/-- C6: a catalog entry is stored by the build step exactly when it is a
JSON object carrying all required attributes — the stored metadata list
is precisely the valid entries' metadata, in order, and every stored
metadata record has every required attribute populated. -/
theorem build_stores_iff_required (catalog : List RawEntry) :
    create_vector_db_metadatas catalog
      = (catalog.filter validEntry).map entryMetadata ∧
    ∀ m ∈ create_vector_db_metadatas catalog, ∀ k ∈ required_fields,
      dictHas m k = true := by
  have heq : create_vector_db_metadatas catalog
      = (catalog.filter validEntry).map entryMetadata := by
    rw [create_vector_db_metadatas, flatMap_chunk_metadatas, chunksOf_flatten]
  refine ⟨heq, ?_⟩
  intro m hm k hk
  rw [heq] at hm
  obtain ⟨e, he, rfl⟩ := List.mem_map.mp hm
  have hv : validEntry e = true := List.of_mem_filter he
  cases e with
  | other => simp [validEntry] at hv
  | dict fields =>
    fin_cases hk <;> rfl

/-- Decimal decoding of a digit string, most significant digit first. -/
def decodeDigits (l : List Char) : Nat :=
  l.foldl (fun a c => a * 10 + (c.toNat - 48)) 0

/-- The code point of a decimal digit character recovers the digit. -/
theorem digitChar_toNat (d : Nat) (h : d < 10) : (Nat.digitChar d).toNat - 48 = d := by
  revert h
  revert d
  decide

/-- The core decimal printer emits a nonempty digit string, in front of
its accumulator, that decodes back to its input. -/
theorem toDigitsCore_spec (fuel : Nat) :
    ∀ (n : Nat) (ds : List Char), n < fuel →
      ∃ l : List Char, l ≠ [] ∧ Nat.toDigitsCore 10 fuel n ds = l ++ ds ∧
        decodeDigits l = n := by
  induction fuel with
  | zero => intro n ds h; omega
  | succ f ih =>
    intro n ds h
    by_cases h10 : n / 10 = 0
    · refine ⟨[Nat.digitChar (n % 10)], by simp, ?_, ?_⟩
      · simp only [Nat.toDigitsCore, h10, if_true]
        rfl
      · have hlt : n % 10 < 10 := Nat.mod_lt _ (by omega)
        have hsmall : n % 10 = n := by omega
        simp only [decodeDigits, List.foldl_cons, List.foldl_nil, Nat.zero_mul,
          Nat.zero_add]
        rw [digitChar_toNat _ hlt, hsmall]
    · have hn0 : 0 < n := by
        rcases Nat.eq_zero_or_pos n with rfl | h'
        · simp at h10
        · exact h'
      have hlt : n / 10 < f := by
        have h1 : n / 10 < n := Nat.div_lt_self hn0 (by omega)
        omega
      obtain ⟨l, hne, heq, hdec⟩ := ih (n / 10) (Nat.digitChar (n % 10) :: ds) hlt
      refine ⟨l ++ [Nat.digitChar (n % 10)], by simp, ?_, ?_⟩
      · simp only [Nat.toDigitsCore, h10, if_false]
        rw [heq, List.append_assoc, List.singleton_append]
      · have hd := digitChar_toNat (n % 10) (Nat.mod_lt _ (by omega))
        unfold decodeDigits at hdec ⊢
        rw [List.foldl_append, List.foldl_cons, List.foldl_nil, hdec, hd]
        omega

/-- The decimal printer for natural numbers is injective. -/
theorem natRepr_injective : Function.Injective Nat.repr := by
  intro m n h
  obtain ⟨lm, hmne, hmeq, hmdec⟩ := toDigitsCore_spec (m + 1) m [] (Nat.lt_succ_self m)
  obtain ⟨ln, hnne, hneq, hndec⟩ := toDigitsCore_spec (n + 1) n [] (Nat.lt_succ_self n)
  have hm : Nat.repr m = lm.asString := by
    show (Nat.toDigits 10 m).asString = lm.asString
    rw [Nat.toDigits, hmeq, List.append_nil]
  have hn : Nat.repr n = ln.asString := by
    show (Nat.toDigits 10 n).asString = ln.asString
    rw [Nat.toDigits, hneq, List.append_nil]
  rw [hm, hn] at h
  have hl : lm = ln := congrArg String.data h
  rw [← hmdec, ← hndec, hl]

/-- Positions in an enumerated list increase strictly. -/
theorem enum_pairwise_fst_lt {α : Type} (l : List α) :
    l.enum.Pairwise (fun a b => a.1 < b.1) := by
  rw [List.pairwise_iff_getElem]
  intro i j hi hj hij
  simp only [List.getElem_enum]
  exact hij

/-- The ids generated for one chunk are pairwise distinct. -/
theorem chunk_ids_nodup (ci : Nat) (c : List RawEntry) : (chunk_ids ci c).Nodup := by
  unfold chunk_ids
  have h1 : (c.enum.filter (fun p => validEntry p.2)).Pairwise (fun a b => a.1 < b.1) :=
    (enum_pairwise_fst_lt c).sublist (List.filter_sublist _)
  have h2 : ((c.enum.filter (fun p => validEntry p.2)).map
      (fun p => ci * max_chunk_size + p.1)).Pairwise (· < ·) := by
    rw [List.pairwise_map]
    exact h1.imp (fun hab => by omega)
  exact h2.imp (fun hab => Nat.ne_of_lt hab)

/-- Every id generated for chunk ci lies in the block of `max_chunk_size`
numbers starting at ci times the chunk size. -/
theorem chunk_ids_bounds (ci : Nat) (c : List RawEntry) (x : Nat)
    (hx : x ∈ chunk_ids ci c) :
    ci * max_chunk_size ≤ x ∧ x < ci * max_chunk_size + c.length := by
  unfold chunk_ids at hx
  obtain ⟨p, hp, rfl⟩ := List.mem_map.mp hx
  have hpe : p ∈ c.enum := (List.mem_filter.mp hp).1
  have hplt : p.1 < c.length := by
    rw [List.mem_enum_iff_getElem?] at hpe
    exact (List.getElem?_eq_some.mp hpe).1
  omega

/-- C10: the document ids generated by the catalog build are unique
across the whole build: chunks hold at most 100 entries, so the id
chunk_idx * 100 + position never collides, even when invalid entries
are skipped, and the decimal strings stored in ChromaDB are therefore
pairwise distinct. -/
theorem build_ids_unique (catalog : List RawEntry) :
    (create_vector_db_ids catalog).Nodup := by
  unfold create_vector_db_ids
  apply List.Nodup.map natRepr_injective
  rw [List.nodup_flatMap]
  constructor
  · intro p hp
    exact chunk_ids_nodup p.1 p.2
  · rw [List.pairwise_iff_getElem]
    intro i j hi hj hij
    have hi' : i < (chunksOf catalog).length := by simpa using hi
    have hj' : j < (chunksOf catalog).length := by simpa using hj
    simp only [Function.onFun, List.getElem_enum]
    intro x hxi hxj
    have hbi := chunk_ids_bounds i ((chunksOf catalog)[i]) x hxi
    have hbj := chunk_ids_bounds j ((chunksOf catalog)[j]) x hxj
    have hleni : ((chunksOf catalog)[i]).length ≤ max_chunk_size :=
      chunksOf_length_le catalog _ (List.getElem_mem hi')
    simp only [max_chunk_size] at hbi hbj hleni
    omega

end SHL
